import Mathlib

/-!
# WorldBoss: contract-interaction and ranking layer

A shallow embedding of `src/services/ethereum.js` (class `EthereumService`) and of the
ranking steps of the command-line script `src/services/aa.js`.

Conventions of the embedding:

* an `async` method becomes a function returning a `Run`: the list of observable effects it
  performed (contract calls, `console.error` lines) and its completion, `Except.ok v` for a
  resolved promise and `Except.error e` for a rejected one;
* on-chain `uint256` values are natural numbers.  The script reaches the chain through
  `hre.ethers.providers.JsonRpcProvider` (ethers v5), which hands them over as `BigNumber`
  objects: `sub` is exact, `toNumber` throws beyond 53 bits, `toString` is the decimal text.
  The service reaches it through `new ethers.BrowserProvider` (ethers v6), which hands them
  over as native `bigint` values: `toString` is the decimal text, and there is no method `sub`;
* `console.log` debugging lines are not recorded.
-/

namespace WorldBoss

/-! ## JavaScript values and errors -/

/-- A thrown error object; the service inspects only its `message`. -/
structure JsError where
  message : String
  deriving DecidableEq, Repr

/-- Observable effects of a service method. -/
inductive Effect where
  | callGetAllParticipants (bossId : Nat)
  | callGetUserStats (bossId : Nat) (user : String)
  | callGetBossInfo (bossId : Nat)
  | callGetActiveBossStatus
  | consoleError (args : List String)
  deriving DecidableEq, Repr

/-- The run of an asynchronous method: the effects performed, in order, and how it completed. -/
structure Run (α : Type) where
  effects : List Effect
  completion : Except JsError α

/-! ## Big numbers as used by the ranking code -/

/-- The bound of `Number.MAX_SAFE_INTEGER + 1`: native numbers hold integers of magnitude
below `2 ^ 53` exactly. -/
def safeLimit : Nat := 2 ^ 53

/-- The method `x.sub(y)` of a `BigNumber`: exact integer subtraction. -/
def sub (x y : Int) : Int := x - y

/-- The error thrown by `toNumber` on a value that does not fit a native number. -/
def overflowError : JsError := ⟨"overflow"⟩

/-- The method `x.toNumber()` of a `BigNumber`: the value itself as a native number when its
magnitude is at most `2 ^ 53 - 1`; otherwise the call throws. -/
def toNumber (x : Int) : Except JsError Int :=
  if x.natAbs < safeLimit then .ok x else .error overflowError

/-- The method `x.toString()` of a `BigNumber` and of a `bigint`: the decimal representation. -/
def bigToString (n : Nat) : String := Nat.repr n

/-! ## `Array.prototype.sort` with a comparator that may throw

The language requires the sort to be stable and to propagate an exception of the comparator;
the order of the comparator calls is left to the engine.  The model is a stable insertion
sort: an element is placed before the first later element it does not have to follow. -/

/-- Insert `a` in front of an already sorted `l`: `a` goes before `b` when
`comparefn(a, b) ≤ 0`. -/
def insertSorted {α : Type} (comparefn : α → α → Except JsError Int) (a : α) :
    List α → Except JsError (List α)
  | [] => .ok [a]
  | b :: l =>
    match comparefn a b with
    | .error e => .error e
    | .ok v =>
      if v ≤ 0 then .ok (a :: b :: l)
      else
        match insertSorted comparefn a l with
        | .error e => .error e
        | .ok r => .ok (b :: r)

/-- The call `array.sort(comparefn)`. -/
def arraySort {α : Type} (comparefn : α → α → Except JsError Int) :
    List α → Except JsError (List α)
  | [] => .ok []
  | a :: l =>
    match arraySort comparefn l with
    | .error e => .error e
    | .ok r => insertSorted comparefn a r

/-! ## The user-statistics contract and the ranking -/

/-- The tuple returned by `getUserStats(bossId, user)`, by the names of `USER_STATS_ABI`. -/
structure UserStatsResult where
  attackCount : Nat
  totalDamage : Nat
  rank : Nat
  deriving DecidableEq, Repr

/-- The `userStats` contract binding: each call resolves or rejects. -/
structure UserStatsContract where
  getAllParticipants : Nat → Except JsError (List String)
  getUserStats : Nat → String → Except JsError UserStatsResult

/-- The object pushed on `damageStats`: the damage is still the decoded integer (a `BigNumber`
in the script, a `bigint` in the service), here by its value. -/
structure DamageStat where
  address : String
  totalDamage : Nat
  deriving DecidableEq, Repr

/-- An entry of the returned leaderboard: the damage is a decimal string. -/
structure RankEntry where
  address : String
  totalDamage : String
  deriving DecidableEq, Repr

/-- The comparator `(a, b) => b.totalDamage.sub(a.totalDamage).toNumber()` of the script
(`aa.js`), where `totalDamage` is a `BigNumber`. -/
def compareDamage (a b : DamageStat) : Except JsError Int :=
  toNumber (sub b.totalDamage a.totalDamage)

/-- The error of the call `b.totalDamage.sub(...)` on a value that has no method `sub`. -/
def subNotAFunction : JsError := ⟨"b.totalDamage.sub is not a function"⟩

/-- The comparator `(a, b) => b.totalDamage.sub(a.totalDamage).toNumber()` of the service
(`ethereum.js`), where `totalDamage` is a native `bigint`: looking up `sub` on it gives
`undefined`, and calling that throws before anything is computed. -/
def compareDamageService (_a _b : DamageStat) : Except JsError Int :=
  .error subNotAFunction

/-- The loop `for (const user of participants)`: one `getUserStats` call per participant, in
order, stopping at the first call that rejects. -/
def fetchDamageStats (userStats : UserStatsContract) (bossId : Nat) :
    List String → Run (List DamageStat)
  | [] => ⟨[], .ok []⟩
  | user :: rest =>
    match userStats.getUserStats bossId user with
    | .error e => ⟨[.callGetUserStats bossId user], .error e⟩
    | .ok stats =>
      match fetchDamageStats userStats bossId rest with
      | ⟨effs, .error e⟩ => ⟨.callGetUserStats bossId user :: effs, .error e⟩
      | ⟨effs, .ok l⟩ => ⟨.callGetUserStats bossId user :: effs, .ok (⟨user, stats.totalDamage⟩ :: l)⟩

/-- The conversion `item => ({address, totalDamage: item.totalDamage.toString()})`. -/
def toRankEntry (item : DamageStat) : RankEntry :=
  ⟨item.address, bigToString item.totalDamage⟩

/-! ## Error classification -/

/-- The method `s.includes(t)` of a string: `t` occurs in `s` as a contiguous run of
characters. -/
def includes (s t : String) : Bool :=
  s.data.tails.any (fun u => t.data.isPrefixOf u)

/-- The console line of the first branch of `handleError`. -/
def reportBossNotActive : List String := ["当前Boss不活跃"]

/-- The console line of the second branch of `handleError`. -/
def reportBossAlreadyDefeated : List String := ["Boss已被击败"]

/-- The console line of the third branch of `handleError`. -/
def reportBossCannotBeAttacked : List String := ["Boss暂时无法攻击"]

/-- The console line of the last branch of `handleError`: the raw message is printed. -/
def reportUnclassified (message : String) : List String := ["交易失败:", message]

/-- The method `handleError(error)`: the arguments of the one `console.error` call it makes,
chosen by the first fragment that `error.message` includes.  It returns normally. -/
def handleError (error : JsError) : List String :=
  if includes error.message "Boss not active" then reportBossNotActive
  else if includes error.message "Boss already defeated" then reportBossAlreadyDefeated
  else if includes error.message "Boss cannot be attacked now" then reportBossCannotBeAttacked
  else reportUnclassified error.message

/-- The block `catch (error) { this.handleError(error); throw error; }` around a `try` body. -/
def catchHandleRethrow {α : Type} (body : Run α) : Run α :=
  match body.completion with
  | .ok _ => body
  | .error e => ⟨body.effects ++ [.consoleError (handleError e)], .error e⟩

/-! ## The service object -/

/-- The tuple returned by `getBossInfo` and by `getActiveBossStatus`, by position, with the
types of the ABI: `uint256` as a natural number, `string`, `bool`. -/
structure BossTuple where
  id : Nat
  name : String
  description : String
  maxHp : Nat
  currentHp : Nat
  level : Nat
  imageUrl : String
  goldNftUrl : String
  silverNftUrl : String
  bronzeNftUrl : String
  attackCount : Nat
  isActive : Bool
  isDefeated : Bool
  skill : String
  deriving DecidableEq, Repr

/-- The `bossCore` contract binding (the calls used here). -/
structure BossCoreContract where
  getBossInfo : Nat → Except JsError BossTuple

/-- The `worldBossSystem` contract binding (the calls used here). -/
structure WorldBossSystemContract where
  getActiveBossStatus : Except JsError BossTuple

/-- The object built by `initContracts`. -/
structure Contracts where
  worldBossSystem : WorldBossSystemContract
  bossCore : BossCoreContract
  userStats : UserStatsContract

/-- The state of an `EthereumService`: `this.contracts` is empty until `init` has run. -/
structure EthereumService where
  contracts : Option Contracts

/-- The guard `if (!this.contracts.x) await this.init()` that opens every method: `init` is
the outcome of connecting through the wallet, which rejects when no wallet is installed. -/
def ensureInit (init : Except JsError Contracts) (service : EthereumService) :
    Except JsError Contracts :=
  match service.contracts with
  | some c => .ok c
  | none => init

/-- The `try` body of `getBossTopThree`. -/
def getBossTopThreeBody (userStats : UserStatsContract) (bossId : Nat) : Run (List RankEntry) :=
  match userStats.getAllParticipants bossId with
  | .error e => ⟨[.callGetAllParticipants bossId], .error e⟩
  | .ok participants =>
    if participants.length = 0 then ⟨[.callGetAllParticipants bossId], .ok []⟩
    else
      match fetchDamageStats userStats bossId participants with
      | ⟨effs, .error e⟩ => ⟨.callGetAllParticipants bossId :: effs, .error e⟩
      | ⟨effs, .ok damageStats⟩ =>
        match arraySort compareDamageService damageStats with
        | .error e => ⟨.callGetAllParticipants bossId :: effs, .error e⟩
        | .ok sorted =>
          ⟨.callGetAllParticipants bossId :: effs, .ok ((sorted.take 3).map toRankEntry)⟩

/-- The method `getBossTopThree(bossId)`. -/
def getBossTopThree (init : Except JsError Contracts) (service : EthereumService)
    (bossId : Nat) : Run (List RankEntry) :=
  match ensureInit init service with
  | .error e => ⟨[], .error e⟩
  | .ok c => catchHandleRethrow (getBossTopThreeBody c.userStats bossId)

/-! ## The command-line script (`aa.js`), steps 4 to 6 -/

/-- How the script ends: `process.exit(code)`, an exception that reaches `main().catch`, or
the ranking that is printed. -/
inductive ScriptEnd where
  | exit (code : Nat)
  | uncaught (e : JsError)
  | ranking (topThree : List DamageStat)
  deriving DecidableEq, Repr

/-- Steps 4 to 6 of `main`, once the `userStats` contract is loaded: list the participants,
fetch their statistics, sort and keep the first three. -/
def main (userStats : UserStatsContract) (bossId : Nat) : ScriptEnd :=
  match userStats.getAllParticipants bossId with
  | .error _ => .exit 1
  | .ok participants =>
    if participants.length = 0 then .exit 0
    else
      match (fetchDamageStats userStats bossId participants).completion with
      | .error _ => .exit 1
      | .ok damageStats =>
        match arraySort compareDamage damageStats with
        | .error e => .uncaught e
        | .ok sorted => .ranking (sorted.take 3)

/-! ## Decimal digits -/

/-- The value of a decimal digit character. -/
def digitValue (c : Char) : Option Nat :=
  if c.isDigit then some (c.toNat - 48) else none

/-- Read decimal digits from the left, continuing the value `acc`. -/
def parseDigits : List Char → Nat → Option Nat
  | [], acc => some acc
  | c :: cs, acc =>
    match digitValue c with
    | none => none
    | some d => parseDigits cs (acc * 10 + d)

/-- Parse a string of decimal digits as an arbitrary-precision integer (what `BigInt(s)` does
on such a string); `none` when a character is not a decimal digit. -/
def parseDecimal (s : String) : Option Nat := parseDigits s.data 0

/-! ## Decoded results and the boss queries -/

/-- A JavaScript value as met in a decoded contract result. -/
inductive JsValue where
  | undefined
  | bigint (n : Nat)
  | string (s : String)
  | boolean (b : Bool)
  deriving DecidableEq, Repr

/-- The names of the outputs of `getBossInfo` in `BOSS_CORE_ABI`. -/
def BOSS_CORE_ABI_getBossInfo : List String :=
  ["id", "name", "description", "maxHp", "currentHp", "level", "imageUrl", "goldNftUrl",
   "silverNftUrl", "bronzeNftUrl", "attackCount", "isActive", "isDefeated", "skillName"]

/-- The names of the outputs of `getActiveBossStatus` in `WORLD_BOSS_SYSTEM_ABI`. -/
def WORLD_BOSS_SYSTEM_ABI_getActiveBossStatus : List String :=
  ["id", "name", "description", "maxHp", "currentHp", "level", "imageUrl", "goldNftUrl",
   "silverNftUrl", "bronzeNftUrl", "attackCount", "isActive", "isDefeated", "skill"]

/-- The values of a returned tuple, by position. -/
def BossTuple.values (t : BossTuple) : List JsValue :=
  [.bigint t.id, .string t.name, .string t.description, .bigint t.maxHp, .bigint t.currentHp,
   .bigint t.level, .string t.imageUrl, .string t.goldNftUrl, .string t.silverNftUrl,
   .string t.bronzeNftUrl, .bigint t.attackCount, .boolean t.isActive, .boolean t.isDefeated,
   .string t.skill]

/-- The result object a contract call resolves to: the returned values under the output names
of the ABI the contract was built with. -/
def decode (names : List String) (t : BossTuple) : List (String × JsValue) :=
  names.zip t.values

/-- The property access `result.name`: `undefined` when no output has that name. -/
def prop (result : List (String × JsValue)) (name : String) : JsValue :=
  (result.lookup name).getD .undefined

/-- The call `v.toString()`: it throws on `undefined`. -/
def callToString : JsValue → Except JsError String
  | .undefined => .error ⟨"Cannot read properties of undefined (reading toString)"⟩
  | .bigint n => .ok (bigToString n)
  | .string s => .ok s
  | .boolean b => .ok (if b then "true" else "false")

/-- The expression `v || d`: `d` when `v` is falsy. -/
def jsOr (v d : JsValue) : JsValue :=
  match v with
  | .undefined => d
  | .bigint n => if n = 0 then d else v
  | .string s => if s = "" then d else v
  | .boolean b => if b then v else d

/-- The call `parseInt(v)`, `none` standing for `NaN`: the leading decimal digits of the text
of `v`.  A big integer beyond `2 ^ 53` is rounded by the language, which does not change
how it compares with 2 and 3, the only use made of the result. -/
def parseInt : JsValue → Option Nat
  | .bigint n => some n
  | .string s =>
    match s.data.takeWhile Char.isDigit with
    | [] => none
    | ds => parseDigits ds 0
  | _ => none

/-- The method `getColorClass(name)`. -/
def getColorClass (name : String) : String :=
  if includes name "烈焰" || includes name "火" then "fire"
  else if includes name "冰霜" || includes name "冰" then "ice"
  else if includes name "暗影" || includes name "暗" then "shadow"
  else "fire"

/-- The call `this.getColorClass(v)` on a decoded value: only a string has `includes`. -/
def callGetColorClass : JsValue → Except JsError String
  | .string s => .ok (getColorClass s)
  | _ => .error ⟨"name.includes is not a function"⟩

/-- The method `getRewardRarity(level)`; a comparison with `NaN` is false. -/
def getRewardRarity (level : Option Nat) : String :=
  match level with
  | none => "普通级"
  | some l => if l ≥ 3 then "史诗级" else if l ≥ 2 then "稀有级" else "普通级"

/-- The object returned by `getBossInfo`. -/
structure BossInfo where
  id : String
  name : JsValue
  description : JsValue
  maxHp : String
  currentHp : String
  level : String
  difficulty : String
  difficultyClass : String
  colorClass : String
  imageUrl : JsValue
  goldNftUrl : JsValue
  silverNftUrl : JsValue
  bronzeNftUrl : JsValue
  attackCount : String
  isActive : JsValue
  isDefeated : JsValue
  skillName : JsValue
  deriving DecidableEq, Repr

/-- The object returned by `getActiveBossStatus`. -/
structure ActiveBossStatus where
  id : String
  name : JsValue
  description : JsValue
  maxHp : String
  currentHp : String
  level : String
  imageUrl : JsValue
  goldNftUrl : JsValue
  silverNftUrl : JsValue
  bronzeNftUrl : JsValue
  attackCount : String
  isActive : JsValue
  isDefeated : JsValue
  skill : JsValue
  deriving DecidableEq, Repr

/-- The object literal returned by `getBossInfo`, its properties evaluated in order. -/
def bossInfoObject (bossInfo : List (String × JsValue)) : Except JsError BossInfo := do
  let id ← callToString (prop bossInfo "id")
  let maxHp ← callToString (prop bossInfo "maxHp")
  let currentHp ← callToString (prop bossInfo "currentHp")
  let level ← callToString (prop bossInfo "level")
  let difficulty := getRewardRarity (parseInt (prop bossInfo "level"))
  let difficultyClass ← callGetColorClass (prop bossInfo "name")
  let colorClass ← callGetColorClass (prop bossInfo "name")
  let attackCount ← callToString (prop bossInfo "attackCount")
  pure {
    id := id
    name := prop bossInfo "name"
    description := prop bossInfo "description"
    maxHp := maxHp
    currentHp := currentHp
    level := level
    difficulty := difficulty
    difficultyClass := difficultyClass
    colorClass := colorClass
    imageUrl := prop bossInfo "imageUrl"
    goldNftUrl := prop bossInfo "goldNftUrl"
    silverNftUrl := prop bossInfo "silverNftUrl"
    bronzeNftUrl := prop bossInfo "bronzeNftUrl"
    attackCount := attackCount
    isActive := prop bossInfo "isActive"
    isDefeated := prop bossInfo "isDefeated"
    skillName := jsOr (prop bossInfo "skill") (.string "") }

/-- The `try` body of `getBossInfo`. -/
def getBossInfoBody (bossCore : BossCoreContract) (bossId : Nat) : Run BossInfo :=
  match bossCore.getBossInfo bossId with
  | .error e => ⟨[.callGetBossInfo bossId], .error e⟩
  | .ok t => ⟨[.callGetBossInfo bossId], bossInfoObject (decode BOSS_CORE_ABI_getBossInfo t)⟩

/-- The method `getBossInfo(bossId)`. -/
def getBossInfo (init : Except JsError Contracts) (service : EthereumService)
    (bossId : Nat) : Run BossInfo :=
  match ensureInit init service with
  | .error e => ⟨[], .error e⟩
  | .ok c => catchHandleRethrow (getBossInfoBody c.bossCore bossId)

/-- The object literal returned by `getActiveBossStatus`, its properties evaluated in order. -/
def activeBossStatusObject (bossInfo : List (String × JsValue)) :
    Except JsError ActiveBossStatus := do
  let id ← callToString (prop bossInfo "id")
  let maxHp ← callToString (prop bossInfo "maxHp")
  let currentHp ← callToString (prop bossInfo "currentHp")
  let level ← callToString (prop bossInfo "level")
  let attackCount ← callToString (prop bossInfo "attackCount")
  pure {
    id := id
    name := prop bossInfo "name"
    description := prop bossInfo "description"
    maxHp := maxHp
    currentHp := currentHp
    level := level
    imageUrl := prop bossInfo "imageUrl"
    goldNftUrl := prop bossInfo "goldNftUrl"
    silverNftUrl := prop bossInfo "silverNftUrl"
    bronzeNftUrl := prop bossInfo "bronzeNftUrl"
    attackCount := attackCount
    isActive := prop bossInfo "isActive"
    isDefeated := prop bossInfo "isDefeated"
    skill := prop bossInfo "skill" }

/-- The `try` body of `getActiveBossStatus`. -/
def getActiveBossStatusBody (worldBossSystem : WorldBossSystemContract) :
    Run ActiveBossStatus :=
  match worldBossSystem.getActiveBossStatus with
  | .error e => ⟨[.callGetActiveBossStatus], .error e⟩
  | .ok t =>
    ⟨[.callGetActiveBossStatus],
      activeBossStatusObject (decode WORLD_BOSS_SYSTEM_ABI_getActiveBossStatus t)⟩

/-- The method `getActiveBossStatus()`. -/
def getActiveBossStatus (init : Except JsError Contracts) (service : EthereumService) :
    Run ActiveBossStatus :=
  match ensureInit init service with
  | .error e => ⟨[], .error e⟩
  | .ok c => catchHandleRethrow (getActiveBossStatusBody c.worldBossSystem)

/-! ## Notions used to state the properties -/

/-- The order the comparator asks for: `a` may stand before `b` when `a` has at least the
damage of `b`. -/
def geDamage (a b : DamageStat) : Prop := b.totalDamage ≤ a.totalDamage

instance : DecidableRel geDamage :=
  fun a b => inferInstanceAs (Decidable (b.totalDamage ≤ a.totalDamage))

instance : IsTotal DamageStat geDamage := ⟨fun a b => Nat.le_total b.totalDamage a.totalDamage⟩

instance : IsTrans DamageStat geDamage := ⟨fun _ _ _ hab hbc => Nat.le_trans hbc hab⟩

/-- The contents of `damageStats` after the loop when the statistics of `user` are `st user`. -/
def statsOf (st : String → UserStatsResult) (participants : List String) : List DamageStat :=
  participants.map (fun user => ⟨user, (st user).totalDamage⟩)

/-- The entry `e` shows a damage strictly above the one `f` shows. -/
def showsMoreDamage (e f : RankEntry) : Prop :=
  ∃ de df, parseDecimal e.totalDamage = some de ∧ parseDecimal f.totalDamage = some df ∧ df < de

/-- Whether an effect is a per-participant `getUserStats` call. -/
def isUserStatsCall : Effect → Bool
  | .callGetUserStats _ _ => true
  | _ => false

/-- The statistics of `user` in a table of participants and damages. -/
def statOf (entries : List (String × Nat)) (user : String) : UserStatsResult :=
  ⟨1, (entries.lookup user).getD 0, 0⟩

/-- A `userStats` contract in which the participants listed for every boss are `entries`, in
this order, each with the damage paired with it, and every call resolves. -/
def contractOf (entries : List (String × Nat)) : UserStatsContract where
  getAllParticipants := fun _ => .ok (entries.map Prod.fst)
  getUserStats := fun _ user => .ok (statOf entries user)

/-- Contract bindings around `contractOf entries`; the boss contracts reject every call. -/
def contractsOf (entries : List (String × Nat)) : Contracts where
  worldBossSystem := ⟨.error ⟨"call revert exception"⟩⟩
  bossCore := ⟨fun _ => .error ⟨"call revert exception"⟩⟩
  userStats := contractOf entries

/-- Participants with pairwise distinct damages. -/
def distinctEntries : List (String × Nat) := [("A", 100), ("B", 300), ("C", 200), ("D", 50)]

/-- The participants of the tie scenario. -/
def tiedEntries : List (String × Nat) := [("A", 100), ("B", 300), ("C", 300), ("D", 50)]

/-- The text `fragment` occurs in `message` as a contiguous run of characters. -/
def occursIn (fragment message : String) : Prop := fragment.data <:+: message.data

/-- A keyword of the fire domain occurs in `name`. -/
def fireKeyword (name : String) : Prop := occursIn "烈焰" name ∨ occursIn "火" name

/-- A keyword of the ice domain occurs in `name`. -/
def iceKeyword (name : String) : Prop := occursIn "冰霜" name ∨ occursIn "冰" name

/-- A keyword of the shadow domain occurs in `name`. -/
def shadowKeyword (name : String) : Prop := occursIn "暗影" name ∨ occursIn "暗" name

/-- A `userStats` contract listing A, B, C in which the statistics query of B rejects. -/
def rejectingContract (e : JsError) : UserStatsContract where
  getAllParticipants := fun _ => .ok ["A", "B", "C"]
  getUserStats := fun _ user => if user = "B" then .error e else .ok ⟨1, 10, 0⟩

/-- A boss with a huge hit-point count and an active skill. -/
def flameLord : BossTuple where
  id := 4
  name := "烈焰领主"
  description := "Lord of the burning keep"
  maxHp := 2 ^ 200 + 1
  currentHp := 2 ^ 64
  level := 3
  imageUrl := "ipfs://boss"
  goldNftUrl := "ipfs://gold"
  silverNftUrl := "ipfs://silver"
  bronzeNftUrl := "ipfs://bronze"
  attackCount := 9007199254740993
  isActive := true
  isDefeated := false
  skill := "Inferno"

/-- Contract bindings whose boss queries resolve to `t`; no participants. -/
def bossContracts (t : BossTuple) : Contracts where
  worldBossSystem := ⟨.ok t⟩
  bossCore := ⟨fun _ => .ok t⟩
  userStats := contractOf []

/-- The rejection of `init` when no wallet is installed. -/
def noWallet : Except JsError Contracts :=
  .error ⟨"Please install MetaMask or another Ethereum wallet first"⟩

/-! ## Decimal strings -/

theorem digitValue_digitChar (k : Nat) (hk : k < 10) : digitValue (Nat.digitChar k) = some k := by
  interval_cases k <;> rfl

theorem parseDigits_toDigitsCore (fuel : Nat) : ∀ (n : Nat) (ds : List Char), n < fuel →
    parseDigits (Nat.toDigitsCore 10 fuel n ds) 0 = parseDigits ds n := by
  induction fuel with
  | zero => intro n ds h; omega
  | succ f ih =>
    intro n ds h
    simp only [Nat.toDigitsCore]
    split
    · rename_i h0
      have hn : n % 10 = n := by omega
      simp only [parseDigits, digitValue_digitChar (n % 10) (Nat.mod_lt _ (by decide))]
      simp [hn]
    · rename_i h0
      rw [ih (n / 10) _ (by omega)]
      simp only [parseDigits, digitValue_digitChar (n % 10) (Nat.mod_lt _ (by decide))]
      congr 1
      omega

/-- Parsing the decimal string of an integer gives the integer back. -/
theorem parseDecimal_bigToString (n : Nat) : parseDecimal (bigToString n) = some n := by
  simp only [parseDecimal, bigToString, Nat.repr, Nat.toDigits]
  rw [show (Nat.toDigitsCore 10 (n + 1) n []).asString.data
    = Nat.toDigitsCore 10 (n + 1) n [] from rfl]
  rw [parseDigits_toDigitsCore (n + 1) n [] (by omega)]
  rfl

theorem bigToString_injective {m n : Nat} (h : bigToString m = bigToString n) : m = n := by
  have hm := parseDecimal_bigToString m
  rw [h, parseDecimal_bigToString n] at hm
  exact (Option.some.inj hm).symm

/-! ## The comparator and the sort -/

theorem compareDamage_ok {a b : DamageStat} {v : Int} (h : compareDamage a b = .ok v) :
    v = (b.totalDamage : Int) - a.totalDamage := by
  unfold compareDamage toNumber sub at h
  split at h
  · injection h with h; exact h.symm
  · cases h

theorem compareDamage_in_range {a b : DamageStat} (ha : a.totalDamage < safeLimit)
    (hb : b.totalDamage < safeLimit) :
    compareDamage a b = .ok ((b.totalDamage : Int) - a.totalDamage) := by
  unfold compareDamage toNumber sub
  rw [if_pos]
  omega

theorem insertSorted_ok (a : DamageStat) : ∀ (l r : List DamageStat),
    insertSorted compareDamage a l = .ok r → r = List.orderedInsert geDamage a l := by
  intro l
  induction l with
  | nil => intro r h; simp [insertSorted] at h; simp [h]
  | cons b l ih =>
    intro r h
    simp only [insertSorted] at h
    cases hc : compareDamage a b with
    | error e => rw [hc] at h; cases h
    | ok v =>
      rw [hc] at h
      have hv := compareDamage_ok hc
      simp only at h
      by_cases hle : v ≤ 0
      · rw [if_pos hle] at h
        injection h with h
        have : geDamage a b := by unfold geDamage; omega
        simp [List.orderedInsert, this, h]
      · rw [if_neg hle] at h
        have hn : ¬ geDamage a b := by unfold geDamage; omega
        cases hi : insertSorted compareDamage a l with
        | error e => rw [hi] at h; cases h
        | ok r' =>
          rw [hi] at h
          injection h with h
          simp [List.orderedInsert, hn, ← h, ih r' hi]

/-- When the sort returns, it returns the stable insertion sort by descending damage. -/
theorem arraySort_ok : ∀ (l r : List DamageStat),
    arraySort compareDamage l = .ok r → r = List.insertionSort geDamage l := by
  intro l
  induction l with
  | nil => intro r h; simp [arraySort] at h; simp [h]
  | cons a l ih =>
    intro r h
    simp only [arraySort] at h
    cases hs : arraySort compareDamage l with
    | error e => rw [hs] at h; cases h
    | ok r' =>
      rw [hs] at h
      simp only at h
      rw [List.insertionSort, ← ih r' hs]
      exact insertSorted_ok a r' r h

theorem insertSorted_in_range (a : DamageStat) (ha : a.totalDamage < safeLimit) :
    ∀ l : List DamageStat, (∀ x ∈ l, x.totalDamage < safeLimit) →
      ∃ r, insertSorted compareDamage a l = .ok r := by
  intro l
  induction l with
  | nil => intro _; exact ⟨[a], rfl⟩
  | cons b l ih =>
    intro hl
    have hb := hl b (List.mem_cons_self _ _)
    obtain ⟨r', hr'⟩ := ih (fun x hx => hl x (List.mem_cons_of_mem _ hx))
    simp only [insertSorted, compareDamage_in_range ha hb, hr']
    split
    · exact ⟨_, rfl⟩
    · exact ⟨_, rfl⟩

/-- The sort of the script returns when every damage is below `2 ^ 53`. -/
theorem arraySort_in_range : ∀ l : List DamageStat, (∀ x ∈ l, x.totalDamage < safeLimit) →
    arraySort compareDamage l = .ok (List.insertionSort geDamage l) := by
  intro l
  induction l with
  | nil => intro _; rfl
  | cons a l ih =>
    intro hl
    have hs := ih (fun x hx => hl x (List.mem_cons_of_mem _ hx))
    have hmem : ∀ x ∈ List.insertionSort geDamage l, x.totalDamage < safeLimit :=
      fun x hx => hl x (List.mem_cons_of_mem _ ((List.mem_insertionSort geDamage).1 hx))
    obtain ⟨r, hr⟩ := insertSorted_in_range a (hl a (List.mem_cons_self _ _)) _ hmem
    have hfull : arraySort compareDamage (a :: l) = .ok r := by
      simp only [arraySort, hs, hr]
    rw [hfull, arraySort_ok _ _ hfull]


/-- With the comparator of the service the sort throws as soon as there are two elements. -/
theorem arraySort_service_two : ∀ (l : List DamageStat) (a b : DamageStat),
    arraySort compareDamageService (a :: b :: l) = .error subNotAFunction := by
  intro l
  induction l with
  | nil => intro a b; rfl
  | cons c l ih =>
    intro a b
    rw [arraySort, ih b c]

/-- With the comparator of the service the sort returns on at most one element only, and
returns the array as it is. -/
theorem arraySort_service_ok (l r : List DamageStat)
    (h : arraySort compareDamageService l = .ok r) : r = l ∧ l.length ≤ 1 := by
  match l, h with
  | [], h => simp [arraySort] at h; subst h; simp
  | [a], h => simp [arraySort, insertSorted] at h; subst h; simp
  | a :: b :: l, h => rw [arraySort_service_two] at h; cases h

theorem insertionSort_short (l : List DamageStat) (h : l.length ≤ 1) :
    List.insertionSort geDamage l = l := by
  match l, h with
  | [], _ => rfl
  | [a], _ => rfl
  | a :: b :: l, h => simp at h

/-! ## The fetch loop and the body of `getBossTopThree` -/

theorem fetchDamageStats_ok (us : UserStatsContract) (bossId : Nat)
    (st : String → UserStatsResult) : ∀ ps : List String,
    (∀ u ∈ ps, us.getUserStats bossId u = .ok (st u)) →
    fetchDamageStats us bossId ps
      = ⟨ps.map (Effect.callGetUserStats bossId), .ok (statsOf st ps)⟩ := by
  intro ps
  induction ps with
  | nil => intro _; rfl
  | cons u ps ih =>
    intro h
    have hu := h u (List.mem_cons_self _ _)
    have hps := ih (fun v hv => h v (List.mem_cons_of_mem _ hv))
    simp only [fetchDamageStats, hu, hps, statsOf, List.map_cons]

theorem fetchDamageStats_error (us : UserStatsContract) (bossId : Nat) (u : String)
    (post : List String) (e : JsError) (hu : us.getUserStats bossId u = .error e) :
    ∀ pre : List String, (∀ v ∈ pre, ∃ s, us.getUserStats bossId v = .ok s) →
    fetchDamageStats us bossId (pre ++ u :: post)
      = ⟨(pre ++ [u]).map (Effect.callGetUserStats bossId), .error e⟩ := by
  intro pre
  induction pre with
  | nil => intro _; simp only [List.nil_append, fetchDamageStats, hu, List.map_cons, List.map_nil]
  | cons v pre ih =>
    intro h
    obtain ⟨s, hs⟩ := h v (List.mem_cons_self _ _)
    have hpre := ih (fun w hw => h w (List.mem_cons_of_mem _ hw))
    simp only [List.cons_append, fetchDamageStats, hs, List.append_eq, hpre, List.map_cons]

/-- The run of the `try` body when every query resolves. -/
theorem getBossTopThreeBody_eq (us : UserStatsContract) (bossId : Nat) (ps : List String)
    (st : String → UserStatsResult) (hps : us.getAllParticipants bossId = .ok ps)
    (hst : ∀ u ∈ ps, us.getUserStats bossId u = .ok (st u)) :
    getBossTopThreeBody us bossId
      = ⟨Effect.callGetAllParticipants bossId ::
          ps.map (Effect.callGetUserStats bossId),
         (arraySort compareDamageService (statsOf st ps)).map
           (fun sorted => (sorted.take 3).map toRankEntry)⟩ := by
  unfold getBossTopThreeBody
  rw [hps]
  cases ps with
  | nil => rfl
  | cons u ps =>
    simp only [List.length_cons, Nat.add_one_ne_zero, if_false, fetchDamageStats_ok us bossId st _ hst]
    cases arraySort compareDamageService (statsOf st (u :: ps)) <;> rfl

theorem getBossTopThree_completion (init : Except JsError Contracts) (c : Contracts)
    (bossId : Nat) : (getBossTopThree init ⟨some c⟩ bossId).completion
      = (getBossTopThreeBody c.userStats bossId).completion := by
  simp only [getBossTopThree, ensureInit, catchHandleRethrow]
  cases h : (getBossTopThreeBody c.userStats bossId).completion <;> simp [h]

/-- Whatever leaderboard the service returns is the first three of the stable descending
sort (it returns one for at most one participant). -/
theorem getBossTopThree_returns (init : Except JsError Contracts) (c : Contracts) (bossId : Nat)
    (ps : List String) (st : String → UserStatsResult)
    (hps : c.userStats.getAllParticipants bossId = .ok ps)
    (hst : ∀ u ∈ ps, c.userStats.getUserStats bossId u = .ok (st u)) (r : List RankEntry)
    (hr : (getBossTopThree init ⟨some c⟩ bossId).completion = .ok r) :
    r = ((List.insertionSort geDamage (statsOf st ps)).take 3).map toRankEntry := by
  rw [getBossTopThree_completion, getBossTopThreeBody_eq _ _ ps st hps hst] at hr
  simp only at hr
  cases hs : arraySort compareDamageService (statsOf st ps) with
  | error e => rw [hs] at hr; cases hr
  | ok sorted =>
    rw [hs] at hr
    injection hr with hr
    obtain ⟨hsorted, hlen⟩ := arraySort_service_ok _ _ hs
    rw [← hr, hsorted, insertionSort_short _ hlen]

/-- The service rejects as soon as there are two participants, even when every query
resolves: the comparator throws on its first call. -/
theorem getBossTopThree_rejects (init : Except JsError Contracts) (c : Contracts) (bossId : Nat)
    (ps : List String) (st : String → UserStatsResult)
    (hps : c.userStats.getAllParticipants bossId = .ok ps)
    (hst : ∀ u ∈ ps, c.userStats.getUserStats bossId u = .ok (st u))
    (htwo : 2 ≤ ps.length) :
    (getBossTopThree init ⟨some c⟩ bossId).completion = .error subNotAFunction := by
  rw [getBossTopThree_completion, getBossTopThreeBody_eq _ _ ps st hps hst]
  match ps, htwo with
  | u :: v :: ps, _ => simp only [statsOf, List.map_cons, arraySort_service_two]; rfl

/-- The script prints a ranking when there is a participant, every query resolves and every
damage is below `2 ^ 53`. -/
theorem main_in_range (us : UserStatsContract) (bossId : Nat) (ps : List String)
    (st : String → UserStatsResult) (hps : us.getAllParticipants bossId = .ok ps)
    (hst : ∀ u ∈ ps, us.getUserStats bossId u = .ok (st u)) (hne : ps ≠ [])
    (hrange : ∀ u ∈ ps, (st u).totalDamage < safeLimit) :
    main us bossId = .ranking ((List.insertionSort geDamage (statsOf st ps)).take 3) := by
  have hl : ∀ x ∈ statsOf st ps, x.totalDamage < safeLimit := by
    intro x hx
    simp only [statsOf, List.mem_map] at hx
    obtain ⟨u, hu, rfl⟩ := hx
    exact hrange u hu
  have hlen : ps.length ≠ 0 := fun h => hne (List.length_eq_zero.1 h)
  simp only [main, hps, if_neg hlen, fetchDamageStats_ok us bossId st _ hst,
    arraySort_in_range _ hl]

theorem main_ranking (us : UserStatsContract) (bossId : Nat) (ps : List String)
    (st : String → UserStatsResult) (hps : us.getAllParticipants bossId = .ok ps)
    (hst : ∀ u ∈ ps, us.getUserStats bossId u = .ok (st u)) (t : List DamageStat)
    (ht : main us bossId = .ranking t) :
    t = (List.insertionSort geDamage (statsOf st ps)).take 3 := by
  unfold main at ht
  rw [hps] at ht
  simp only at ht
  split at ht
  · cases ht
  · rw [fetchDamageStats_ok us bossId st _ hst] at ht
    simp only at ht
    cases hs : arraySort compareDamage (statsOf st ps) with
    | error e => rw [hs] at ht; cases ht
    | ok sorted =>
      rw [hs] at ht
      injection ht with ht
      rw [← ht, arraySort_ok _ _ hs]

/-! ## Properties of the stable descending sort -/

theorem statsOf_map_damage (st : String → UserStatsResult) (ps : List String) :
    (statsOf st ps).map DamageStat.totalDamage = ps.map (fun u => (st u).totalDamage) := by
  simp [statsOf, List.map_map, Function.comp_def]

theorem insertionSort_strict (l : List DamageStat) (h : (l.map DamageStat.totalDamage).Nodup) :
    (List.insertionSort geDamage l).Pairwise (fun x y => y.totalDamage < x.totalDamage) := by
  have hs : (List.insertionSort geDamage l).Pairwise geDamage := List.sorted_insertionSort geDamage l
  have hn : ((List.insertionSort geDamage l).map DamageStat.totalDamage).Nodup :=
    ((List.perm_insertionSort geDamage l).map _).nodup_iff.2 h
  have hne : (List.insertionSort geDamage l).Pairwise
      (fun x y => x.totalDamage ≠ y.totalDamage) := List.pairwise_map.1 hn
  exact (hs.and hne).imp (fun ⟨h1, h2⟩ => lt_of_le_of_ne h1 (Ne.symm h2))

theorem showsMoreDamage_toRankEntry {x y : DamageStat} (h : y.totalDamage < x.totalDamage) :
    showsMoreDamage (toRankEntry x) (toRankEntry y) :=
  ⟨x.totalDamage, y.totalDamage, parseDecimal_bigToString _, parseDecimal_bigToString _, h⟩

/-! ## Text inclusion, effects, boss queries -/

theorem includes_iff (s t : String) : includes s t = true ↔ occursIn t s := by
  unfold includes occursIn
  rw [List.any_eq_true, List.infix_iff_prefix_suffix]
  constructor
  · rintro ⟨u, hu, hp⟩
    exact ⟨u, List.isPrefixOf_iff_prefix.1 hp, (List.mem_tails _ _).1 hu⟩
  · rintro ⟨u, hp, hu⟩
    exact ⟨u, (List.mem_tails _ _).2 hu, List.isPrefixOf_iff_prefix.2 hp⟩

theorem includes_false_iff (s t : String) : includes s t = false ↔ ¬ occursIn t s := by
  rw [← includes_iff, Bool.not_eq_true]

theorem catchHandleRethrow_effects {α : Type} (body : Run α) :
    (catchHandleRethrow body).effects.filter isUserStatsCall
      = body.effects.filter isUserStatsCall := by
  unfold catchHandleRethrow
  cases h : body.completion with
  | ok a => rfl
  | error e => simp [List.filter_append, List.filter_cons, isUserStatsCall]

theorem fetchDamageStats_effects (us : UserStatsContract) (bossId : Nat) :
    ∀ ps : List String,
      (fetchDamageStats us bossId ps).effects <+: ps.map (Effect.callGetUserStats bossId) := by
  intro ps
  induction ps with
  | nil => exact List.prefix_refl _
  | cons u ps ih =>
    simp only [fetchDamageStats, List.map_cons]
    cases hu : us.getUserStats bossId u with
    | error e => exact ⟨ps.map (Effect.callGetUserStats bossId), rfl⟩
    | ok stats =>
      simp only
      obtain ⟨rest, hrest⟩ := ih
      cases hf : fetchDamageStats us bossId ps with
      | mk effs completion =>
        rw [hf] at hrest
        cases completion with
        | error e => exact ⟨rest, by simp only [List.cons_append, ← hrest]⟩
        | ok l => exact ⟨rest, by simp only [List.cons_append, ← hrest]⟩

theorem fetchDamageStats_effects_all (us : UserStatsContract) (bossId : Nat) :
    ∀ ps : List String, (∀ u ∈ ps, ∃ s, us.getUserStats bossId u = .ok s) →
      (fetchDamageStats us bossId ps).effects = ps.map (Effect.callGetUserStats bossId) := by
  intro ps
  induction ps with
  | nil => intro _; rfl
  | cons u ps ih =>
    intro h
    obtain ⟨s, hs⟩ := h u (List.mem_cons_self _ _)
    have hps := ih (fun v hv => h v (List.mem_cons_of_mem _ hv))
    simp only [fetchDamageStats, hs, List.map_cons]
    cases hf : fetchDamageStats us bossId ps with
    | mk effs completion =>
      rw [hf] at hps
      cases completion with
      | error e => simp only [← hps]
      | ok l => simp only [← hps]

theorem getBossTopThreeBody_effects (us : UserStatsContract) (bossId : Nat) (ps : List String)
    (hps : us.getAllParticipants bossId = .ok ps) :
    (getBossTopThreeBody us bossId).effects
      = Effect.callGetAllParticipants bossId :: (fetchDamageStats us bossId ps).effects := by
  unfold getBossTopThreeBody
  rw [hps]
  cases ps with
  | nil => rfl
  | cons u ps =>
    simp only [List.length_cons, Nat.add_one_ne_zero, if_false]
    cases hf : fetchDamageStats us bossId (u :: ps) with
    | mk effs completion =>
      cases completion with
      | error e => rfl
      | ok l =>
        simp only
        cases arraySort compareDamageService l <;> rfl

theorem filter_prefix_userStatsCalls (bossId : Nat) (ps : List String) (l : List Effect)
    (h : l <+: ps.map (Effect.callGetUserStats bossId)) : l.filter isUserStatsCall = l := by
  rw [List.filter_eq_self]
  intro x hx
  obtain ⟨u, _, rfl⟩ := List.mem_map.1 (h.subset hx)
  rfl

theorem catchHandleRethrow_error {α : Type} (body : Run α) (e : JsError)
    (h : body.completion = .error e) :
    catchHandleRethrow body = ⟨body.effects ++ [.consoleError (handleError e)], .error e⟩ := by
  unfold catchHandleRethrow
  rw [h]

theorem bossInfoObject_decode (t : BossTuple) :
    bossInfoObject (decode BOSS_CORE_ABI_getBossInfo t) = .ok {
      id := bigToString t.id
      name := .string t.name
      description := .string t.description
      maxHp := bigToString t.maxHp
      currentHp := bigToString t.currentHp
      level := bigToString t.level
      difficulty := getRewardRarity (some t.level)
      difficultyClass := getColorClass t.name
      colorClass := getColorClass t.name
      imageUrl := .string t.imageUrl
      goldNftUrl := .string t.goldNftUrl
      silverNftUrl := .string t.silverNftUrl
      bronzeNftUrl := .string t.bronzeNftUrl
      attackCount := bigToString t.attackCount
      isActive := .boolean t.isActive
      isDefeated := .boolean t.isDefeated
      skillName := .string "" } := rfl

theorem activeBossStatusObject_decode (t : BossTuple) :
    activeBossStatusObject (decode WORLD_BOSS_SYSTEM_ABI_getActiveBossStatus t) = .ok {
      id := bigToString t.id
      name := .string t.name
      description := .string t.description
      maxHp := bigToString t.maxHp
      currentHp := bigToString t.currentHp
      level := bigToString t.level
      imageUrl := .string t.imageUrl
      goldNftUrl := .string t.goldNftUrl
      silverNftUrl := .string t.silverNftUrl
      bronzeNftUrl := .string t.bronzeNftUrl
      attackCount := bigToString t.attackCount
      isActive := .boolean t.isActive
      isDefeated := .boolean t.isDefeated
      skill := .string t.skill } := rfl

theorem getBossInfo_completion (init : Except JsError Contracts) (c : Contracts) (bossId : Nat)
    (t : BossTuple) (h : c.bossCore.getBossInfo bossId = .ok t) :
    (getBossInfo init ⟨some c⟩ bossId).completion
      = bossInfoObject (decode BOSS_CORE_ABI_getBossInfo t) := by
  simp only [getBossInfo, ensureInit, getBossInfoBody, h, catchHandleRethrow,
    bossInfoObject_decode]

theorem getActiveBossStatus_completion (init : Except JsError Contracts) (c : Contracts)
    (t : BossTuple) (h : c.worldBossSystem.getActiveBossStatus = .ok t) :
    (getActiveBossStatus init ⟨some c⟩).completion
      = activeBossStatusObject (decode WORLD_BOSS_SYSTEM_ABI_getActiveBossStatus t) := by
  simp only [getActiveBossStatus, ensureInit, getActiveBossStatusBody, h, catchHandleRethrow,
    activeBossStatusObject_decode]

/-! ## The claims -/

/-- C1: when the cumulative damages of the participants are pairwise distinct, every
leaderboard returned by `getBossTopThree` is strictly descending in damage, and so is every
top-three list of the command-line script; the script prints such a list when there is a
participant and the damages are below `2 ^ 53`. -/
theorem getBossTopThree_strictly_descending (init : Except JsError Contracts) (c : Contracts)
    (bossId : Nat) (ps : List String) (st : String → UserStatsResult)
    (hps : c.userStats.getAllParticipants bossId = .ok ps)
    (hst : ∀ u ∈ ps, c.userStats.getUserStats bossId u = .ok (st u))
    (hdistinct : (ps.map (fun u => (st u).totalDamage)).Nodup) :
    (∀ r, (getBossTopThree init ⟨some c⟩ bossId).completion = .ok r →
        r.Pairwise showsMoreDamage)
    ∧ (∀ t, main c.userStats bossId = .ranking t →
        t.Pairwise (fun x y => y.totalDamage < x.totalDamage))
    ∧ (ps ≠ [] → (∀ u ∈ ps, (st u).totalDamage < safeLimit) →
        ∃ t, main c.userStats bossId = .ranking t) := by
  have hstrict := insertionSort_strict (statsOf st ps) (by rw [statsOf_map_damage]; exact hdistinct)
  have htake := hstrict.sublist (List.take_sublist 3 _)
  refine ⟨?_, ?_, ?_⟩
  · intro r hr
    rw [getBossTopThree_returns init c bossId ps st hps hst r hr]
    exact List.pairwise_map.2 (htake.imp showsMoreDamage_toRankEntry)
  · intro t ht
    rw [main_ranking c.userStats bossId ps st hps hst t ht]
    exact htake
  · intro hne hrange
    exact ⟨_, main_in_range c.userStats bossId ps st hps hst hne hrange⟩

/-- C1 at the participants A:100, B:300, C:200, D:50, for which the script prints
B:300, C:200, A:100. -/
theorem getBossTopThree_strictly_descending_witness :
    ((distinctEntries.map Prod.fst).map (fun u => (statOf distinctEntries u).totalDamage)).Nodup
    ∧ main (contractOf distinctEntries) 7 = .ranking [⟨"B", 300⟩, ⟨"C", 200⟩, ⟨"A", 100⟩]
    ∧ ((∀ r, (getBossTopThree noWallet ⟨some (contractsOf distinctEntries)⟩ 7).completion = .ok r →
        r.Pairwise showsMoreDamage)
      ∧ (∀ t, main (contractsOf distinctEntries).userStats 7 = .ranking t →
        t.Pairwise (fun x y => y.totalDamage < x.totalDamage))
      ∧ (distinctEntries.map Prod.fst ≠ [] →
        (∀ u ∈ distinctEntries.map Prod.fst, (statOf distinctEntries u).totalDamage < safeLimit) →
        ∃ t, main (contractsOf distinctEntries).userStats 7 = .ranking t)) :=
  ⟨by decide, rfl, getBossTopThree_strictly_descending noWallet (contractsOf distinctEntries) 7
      (distinctEntries.map Prod.fst) (statOf distinctEntries) rfl (fun _ _ => rfl) (by decide)⟩

/-- C2 (the code departs from the claim): for the participants A:100, B:300, C:300, D:50,
every query resolving, `getBossTopThree` rejects, because its comparator calls a method
that the damage values of the service do not have; the same steps in the command-line
script give B:300, C:300, A:100. -/
theorem getBossTopThree_tie_scenario :
    (contractsOf tiedEntries).userStats.getAllParticipants 0 = .ok ["A", "B", "C", "D"]
    ∧ (getBossTopThree noWallet ⟨some (contractsOf tiedEntries)⟩ 0).completion
        = .error subNotAFunction
    ∧ main (contractOf tiedEntries) 0 = .ranking [⟨"B", 300⟩, ⟨"C", 300⟩, ⟨"A", 100⟩] :=
  ⟨rfl, rfl, rfl⟩

/-- C3 (the code departs from the claim): on the damages `2 ^ 53` and `0` the comparator of
the script throws, in either order of its arguments, so the script ends on an uncaught
exception; the comparator of the service throws on every call, so `getBossTopThree`
rejects on these two participants as well. -/
theorem compareDamage_overflow :
    compareDamage ⟨"A", 2 ^ 53⟩ ⟨"B", 0⟩ = .error overflowError
    ∧ compareDamage ⟨"B", 0⟩ ⟨"A", 2 ^ 53⟩ = .error overflowError
    ∧ compareDamageService ⟨"A", 2 ^ 53⟩ ⟨"B", 0⟩ = .error subNotAFunction
    ∧ compareDamageService ⟨"B", 0⟩ ⟨"A", 2 ^ 53⟩ = .error subNotAFunction
    ∧ (getBossTopThree noWallet ⟨some (contractsOf [("A", 2 ^ 53), ("B", 0)])⟩ 0).completion
        = .error subNotAFunction
    ∧ main (contractOf [("A", 2 ^ 53), ("B", 0)]) 0 = .uncaught overflowError :=
  ⟨rfl, rfl, rfl, rfl, rfl, rfl⟩

/-- C4 (the code departs from the claim): for the participants A:100, B:300, C:200, D:50,
every query resolving, `getBossTopThree` rejects and returns no entry at all, where the
three participants with the highest damage are B, C, A; the same steps in the command-line
script give B:300, C:200, A:100. -/
theorem getBossTopThree_no_top_three :
    (contractsOf distinctEntries).userStats.getAllParticipants 1 = .ok ["A", "B", "C", "D"]
    ∧ (getBossTopThree noWallet ⟨some (contractsOf distinctEntries)⟩ 1).completion
        = .error subNotAFunction
    ∧ (getBossTopThree noWallet ⟨some (contractsOf distinctEntries)⟩ 1).effects
        = [.callGetAllParticipants 1, .callGetUserStats 1 "A", .callGetUserStats 1 "B",
            .callGetUserStats 1 "C", .callGetUserStats 1 "D",
            .consoleError (reportUnclassified "b.totalDamage.sub is not a function")]
    ∧ main (contractOf distinctEntries) 1 = .ranking [⟨"B", 300⟩, ⟨"C", 200⟩, ⟨"A", 100⟩] :=
  ⟨rfl, rfl, rfl, rfl⟩

/-- C5 (the code departs from the claim): for the two participants A:7, B:9, every query
resolving, `getBossTopThree` rejects, so no leaderboard of length 2 is returned; with the
single participant A:7 it returns one entry. -/
theorem getBossTopThree_no_leaderboard :
    (contractsOf [("A", 7), ("B", 9)]).userStats.getAllParticipants 2 = .ok ["A", "B"]
    ∧ (contractsOf [("A", 7), ("B", 9)]).userStats.getUserStats 2 "A" = .ok ⟨1, 7, 0⟩
    ∧ (contractsOf [("A", 7), ("B", 9)]).userStats.getUserStats 2 "B" = .ok ⟨1, 9, 0⟩
    ∧ (getBossTopThree noWallet ⟨some (contractsOf [("A", 7), ("B", 9)])⟩ 2).completion
        = .error subNotAFunction
    ∧ (getBossTopThree noWallet ⟨some (contractsOf [("A", 7)])⟩ 2).completion
        = .ok [⟨"A", "7"⟩] :=
  ⟨rfl, rfl, rfl, rfl, rfl⟩

/-- C6: the `getUserStats` calls made by `getBossTopThree` are one per participant, in the
order of the list, up to the first that rejects; when every query resolves their number is
the number of participants; with no participant the method makes the `getAllParticipants`
call only and returns the empty sequence. -/
theorem getBossTopThree_queries (init : Except JsError Contracts) (c : Contracts)
    (bossId : Nat) (ps : List String)
    (hps : c.userStats.getAllParticipants bossId = .ok ps) :
    ((getBossTopThree init ⟨some c⟩ bossId).effects.filter isUserStatsCall
        <+: ps.map (Effect.callGetUserStats bossId))
    ∧ ((∀ u ∈ ps, ∃ s, c.userStats.getUserStats bossId u = .ok s) →
        (getBossTopThree init ⟨some c⟩ bossId).effects.filter isUserStatsCall
            = ps.map (Effect.callGetUserStats bossId)
        ∧ ((getBossTopThree init ⟨some c⟩ bossId).effects.filter isUserStatsCall).length
            = ps.length)
    ∧ (ps = [] →
        (getBossTopThree init ⟨some c⟩ bossId).completion = .ok []
        ∧ (getBossTopThree init ⟨some c⟩ bossId).effects
            = [Effect.callGetAllParticipants bossId]) := by
  have heff : (getBossTopThree init ⟨some c⟩ bossId).effects.filter isUserStatsCall
      = (fetchDamageStats c.userStats bossId ps).effects := by
    simp only [getBossTopThree, ensureInit]
    rw [catchHandleRethrow_effects, getBossTopThreeBody_effects _ _ ps hps]
    simp only [List.filter_cons, isUserStatsCall, Bool.false_eq_true, if_false]
    exact filter_prefix_userStatsCalls bossId ps _ (fetchDamageStats_effects _ _ ps)
  refine ⟨?_, ?_, ?_⟩
  · rw [heff]
    exact fetchDamageStats_effects _ _ ps
  · intro hall
    rw [heff, fetchDamageStats_effects_all _ _ ps hall]
    exact ⟨rfl, List.length_map _ _⟩
  · intro hnil
    subst hnil
    simp only [getBossTopThree, ensureInit, getBossTopThreeBody, hps]
    exact ⟨rfl, rfl⟩

/-- C6 at a boss without participants. -/
theorem getBossTopThree_queries_witness :
    (contractsOf []).userStats.getAllParticipants 5 = .ok []
    ∧ (getBossTopThree noWallet ⟨some (contractsOf [])⟩ 5).completion = .ok []
    ∧ (getBossTopThree noWallet ⟨some (contractsOf [])⟩ 5).effects
        = [Effect.callGetAllParticipants 5] :=
  ⟨rfl, (getBossTopThree_queries noWallet (contractsOf []) 5 [] rfl).2.2 rfl⟩

/-- C7: when the `getAllParticipants` call rejects with `e`, or the `getUserStats` call of a
participant rejects with `e` after the calls of the participants before it resolved,
`getBossTopThree` rejects with that same `e` (no leaderboard is returned), and the last thing
it did was to report `e` through `handleError`. -/
theorem getBossTopThree_rethrows (init : Except JsError Contracts) (c : Contracts)
    (bossId : Nat) (e : JsError)
    (h : c.userStats.getAllParticipants bossId = .error e
      ∨ ∃ pre u post, c.userStats.getAllParticipants bossId = .ok (pre ++ u :: post)
          ∧ (∀ v ∈ pre, ∃ s, c.userStats.getUserStats bossId v = .ok s)
          ∧ c.userStats.getUserStats bossId u = .error e) :
    (getBossTopThree init ⟨some c⟩ bossId).completion = .error e
    ∧ (getBossTopThree init ⟨some c⟩ bossId).effects.getLast?
        = some (.consoleError (handleError e)) := by
  have hbody : (getBossTopThreeBody c.userStats bossId).completion = .error e := by
    rcases h with h | ⟨pre, u, post, hps, hpre, hu⟩
    · simp only [getBossTopThreeBody, h]
    · have hne : (pre ++ u :: post).length ≠ 0 := by simp
      simp only [getBossTopThreeBody, hps, if_neg hne,
        fetchDamageStats_error c.userStats bossId u post e hu pre hpre]
  have hrun : getBossTopThree init ⟨some c⟩ bossId
      = ⟨(getBossTopThreeBody c.userStats bossId).effects ++ [.consoleError (handleError e)],
          .error e⟩ := by
    simp only [getBossTopThree, ensureInit, catchHandleRethrow_error _ e hbody]
  rw [hrun]
  exact ⟨rfl, by simp⟩

/-- C7 at participants A, B, C where the statistics query of B rejects. -/
theorem getBossTopThree_rethrows_witness :
    (rejectingContract ⟨"Boss not active"⟩).getUserStats 2 "B" = .error ⟨"Boss not active"⟩
    ∧ ((getBossTopThree noWallet
          ⟨some ⟨⟨.ok flameLord⟩, ⟨fun _ => .ok flameLord⟩,
            rejectingContract ⟨"Boss not active"⟩⟩⟩ 2).completion
        = .error ⟨"Boss not active"⟩
      ∧ (getBossTopThree noWallet
          ⟨some ⟨⟨.ok flameLord⟩, ⟨fun _ => .ok flameLord⟩,
            rejectingContract ⟨"Boss not active"⟩⟩⟩ 2).effects.getLast?
        = some (.consoleError (handleError ⟨"Boss not active"⟩))) :=
  ⟨rfl, getBossTopThree_rethrows noWallet
      ⟨⟨.ok flameLord⟩, ⟨fun _ => .ok flameLord⟩, rejectingContract ⟨"Boss not active"⟩⟩ 2
      ⟨"Boss not active"⟩
      (Or.inr ⟨["A"], "B", ["C"], rfl,
        fun v hv => by simp only [List.mem_singleton] at hv; subst hv; exact ⟨_, rfl⟩, rfl⟩)⟩

/-- C8 as stated fails: a message that contains both "Boss not active" and
"Boss already defeated" is reported as the former, not as the latter. -/
theorem handleError_two_fragments :
    occursIn "Boss already defeated" "Boss not active; Boss already defeated"
    ∧ handleError ⟨"Boss not active; Boss already defeated"⟩ ≠ reportBossAlreadyDefeated
    ∧ handleError ⟨"Boss not active; Boss already defeated"⟩ = reportBossNotActive :=
  ⟨(includes_iff _ _).1 (by decide), by decide, by decide⟩

/-- C8 (amended): `handleError` reports by the first fragment that occurs in the message, in
the order "Boss not active", "Boss already defeated", "Boss cannot be attacked now"; when
none occurs it reports the raw message. -/
theorem handleError_first_fragment (error : JsError) :
    (occursIn "Boss not active" error.message → handleError error = reportBossNotActive)
    ∧ (¬ occursIn "Boss not active" error.message →
        occursIn "Boss already defeated" error.message →
        handleError error = reportBossAlreadyDefeated)
    ∧ (¬ occursIn "Boss not active" error.message →
        ¬ occursIn "Boss already defeated" error.message →
        occursIn "Boss cannot be attacked now" error.message →
        handleError error = reportBossCannotBeAttacked)
    ∧ (¬ occursIn "Boss not active" error.message →
        ¬ occursIn "Boss already defeated" error.message →
        ¬ occursIn "Boss cannot be attacked now" error.message →
        handleError error = reportUnclassified error.message) := by
  refine ⟨?_, ?_, ?_, ?_⟩
  · intro h1
    simp only [handleError, (includes_iff _ _).2 h1, if_true]
  · intro h1 h2
    simp only [handleError, (includes_false_iff _ _).2 h1, (includes_iff _ _).2 h2, if_true,
      Bool.false_eq_true, if_false]
  · intro h1 h2 h3
    simp only [handleError, (includes_false_iff _ _).2 h1, (includes_false_iff _ _).2 h2,
      (includes_iff _ _).2 h3, if_true, Bool.false_eq_true, if_false]
  · intro h1 h2 h3
    simp only [handleError, (includes_false_iff _ _).2 h1, (includes_false_iff _ _).2 h2,
      (includes_false_iff _ _).2 h3, Bool.false_eq_true, if_false]

/-- C8 (amended) at the message "execution reverted: Boss already defeated". -/
theorem handleError_first_fragment_witness :
    handleError ⟨"execution reverted: Boss already defeated"⟩ = reportBossAlreadyDefeated :=
  (handleError_first_fragment ⟨"execution reverted: Boss already defeated"⟩).2.1
    ((includes_false_iff _ _).1 (by decide)) ((includes_iff _ _).1 (by decide))

/-- C9: the decimal strings that `getBossInfo` and `getActiveBossStatus` produce for `maxHp`,
`currentHp` and `attackCount` parse back to the on-chain values, whatever their size. -/
theorem boss_numbers_round_trip (init : Except JsError Contracts) (c : Contracts)
    (bossId : Nat) (t s : BossTuple)
    (hinfo : c.bossCore.getBossInfo bossId = .ok t)
    (hstatus : c.worldBossSystem.getActiveBossStatus = .ok s) :
    (∃ o, (getBossInfo init ⟨some c⟩ bossId).completion = .ok o
      ∧ parseDecimal o.maxHp = some t.maxHp
      ∧ parseDecimal o.currentHp = some t.currentHp
      ∧ parseDecimal o.attackCount = some t.attackCount)
    ∧ (∃ o, (getActiveBossStatus init ⟨some c⟩).completion = .ok o
      ∧ parseDecimal o.maxHp = some s.maxHp
      ∧ parseDecimal o.currentHp = some s.currentHp
      ∧ parseDecimal o.attackCount = some s.attackCount) := by
  constructor
  · rw [getBossInfo_completion init c bossId t hinfo, bossInfoObject_decode]
    exact ⟨_, rfl, parseDecimal_bigToString _, parseDecimal_bigToString _,
      parseDecimal_bigToString _⟩
  · rw [getActiveBossStatus_completion init c s hstatus, activeBossStatusObject_decode]
    exact ⟨_, rfl, parseDecimal_bigToString _, parseDecimal_bigToString _,
      parseDecimal_bigToString _⟩

/-- C9 at a boss whose values exceed `2 ^ 53`. -/
theorem boss_numbers_round_trip_witness :
    (bossContracts flameLord).bossCore.getBossInfo 4 = .ok flameLord
    ∧ ((∃ o, (getBossInfo noWallet ⟨some (bossContracts flameLord)⟩ 4).completion = .ok o
        ∧ parseDecimal o.maxHp = some flameLord.maxHp
        ∧ parseDecimal o.currentHp = some flameLord.currentHp
        ∧ parseDecimal o.attackCount = some flameLord.attackCount)
      ∧ (∃ o, (getActiveBossStatus noWallet ⟨some (bossContracts flameLord)⟩).completion = .ok o
        ∧ parseDecimal o.maxHp = some flameLord.maxHp
        ∧ parseDecimal o.currentHp = some flameLord.currentHp
        ∧ parseDecimal o.attackCount = some flameLord.attackCount)) :=
  ⟨rfl, boss_numbers_round_trip noWallet (bossContracts flameLord) 4 flameLord flameLord
      rfl rfl⟩

/-- C10 (the code departs from the claim): for a boss whose on-chain skill name is
"Inferno", the `skillName` of the object returned by `getBossInfo` is the empty string,
while `getActiveBossStatus` passes the skill name through. -/
theorem getBossInfo_skillName_empty :
    flameLord.skill = "Inferno"
    ∧ (∃ o, (getBossInfo noWallet ⟨some (bossContracts flameLord)⟩ 4).completion = .ok o
        ∧ o.skillName = .string "")
    ∧ (∃ o, (getActiveBossStatus noWallet ⟨some (bossContracts flameLord)⟩).completion = .ok o
        ∧ o.skill = .string "Inferno") :=
  ⟨rfl, ⟨_, rfl, rfl⟩, ⟨_, rfl, rfl⟩⟩

/-! ## The theme tag -/

theorem includes_or_iff (name k₁ k₂ : String) :
    (includes name k₁ || includes name k₂) = true ↔ occursIn k₁ name ∨ occursIn k₂ name := by
  rw [Bool.or_eq_true, includes_iff, includes_iff]

theorem getColorClass_fire (name : String) (h : fireKeyword name) :
    getColorClass name = "fire" := by
  unfold getColorClass
  rw [if_pos ((includes_or_iff _ _ _).2 h)]

theorem getColorClass_ice (name : String) (hf : ¬ fireKeyword name) (hi : iceKeyword name) :
    getColorClass name = "ice" := by
  unfold getColorClass
  rw [if_neg (fun h => hf ((includes_or_iff _ _ _).1 h)), if_pos ((includes_or_iff _ _ _).2 hi)]

theorem getColorClass_shadow (name : String) (hf : ¬ fireKeyword name) (hi : ¬ iceKeyword name)
    (hs : shadowKeyword name) : getColorClass name = "shadow" := by
  unfold getColorClass
  rw [if_neg (fun h => hf ((includes_or_iff _ _ _).1 h)),
    if_neg (fun h => hi ((includes_or_iff _ _ _).1 h)), if_pos ((includes_or_iff _ _ _).2 hs)]

theorem getColorClass_default (name : String) (hf : ¬ fireKeyword name) (hi : ¬ iceKeyword name)
    (hs : ¬ shadowKeyword name) : getColorClass name = "fire" := by
  unfold getColorClass
  rw [if_neg (fun h => hf ((includes_or_iff _ _ _).1 h)),
    if_neg (fun h => hi ((includes_or_iff _ _ _).1 h)),
    if_neg (fun h => hs ((includes_or_iff _ _ _).1 h))]

/-- C11: `getColorClass` returns the tag of the first domain, in the order fire, ice, shadow,
of which a keyword occurs in the name, and "fire" when no keyword occurs; so a name
containing "火" gives "fire", a name containing "冰" and no fire keyword gives "ice", the
result is always one of the three tags, and `getBossInfo` returns this tag of the on-chain
name as `colorClass` and `difficultyClass`. -/
theorem getColorClass_priority (name : String) :
    (fireKeyword name → getColorClass name = "fire")
    ∧ (¬ fireKeyword name → iceKeyword name → getColorClass name = "ice")
    ∧ (¬ fireKeyword name → ¬ iceKeyword name → shadowKeyword name →
        getColorClass name = "shadow")
    ∧ (¬ fireKeyword name → ¬ iceKeyword name → ¬ shadowKeyword name →
        getColorClass name = "fire")
    ∧ (occursIn "火" name → getColorClass name = "fire")
    ∧ (occursIn "冰" name → ¬ fireKeyword name → getColorClass name = "ice")
    ∧ (getColorClass name = "fire" ∨ getColorClass name = "ice"
        ∨ getColorClass name = "shadow")
    ∧ (∀ (init : Except JsError Contracts) (c : Contracts) (bossId : Nat) (t : BossTuple),
        c.bossCore.getBossInfo bossId = .ok t → t.name = name →
        ∃ o, (getBossInfo init ⟨some c⟩ bossId).completion = .ok o
          ∧ o.colorClass = getColorClass name ∧ o.difficultyClass = getColorClass name) := by
  refine ⟨getColorClass_fire name, getColorClass_ice name, getColorClass_shadow name,
    getColorClass_default name, fun h => getColorClass_fire name (Or.inr h),
    fun h hf => getColorClass_ice name hf (Or.inr h), ?_, ?_⟩
  · by_cases hf : fireKeyword name
    · exact Or.inl (getColorClass_fire name hf)
    · by_cases hi : iceKeyword name
      · exact Or.inr (Or.inl (getColorClass_ice name hf hi))
      · by_cases hs : shadowKeyword name
        · exact Or.inr (Or.inr (getColorClass_shadow name hf hi hs))
        · exact Or.inl (getColorClass_default name hf hi hs)
  · intro init c bossId t ht hname
    rw [getBossInfo_completion init c bossId t ht, bossInfoObject_decode, ← hname]
    exact ⟨_, rfl, rfl, rfl⟩

/-- C11 at the names "寒冰巨人" (ice), "暗影之王" (shadow), "石像守卫" (no keyword) and at
the boss "烈焰领主" as returned by `getBossInfo`. -/
theorem getColorClass_priority_witness :
    getColorClass "寒冰巨人" = "ice"
    ∧ getColorClass "暗影之王" = "shadow"
    ∧ getColorClass "石像守卫" = "fire"
    ∧ (∃ o, (getBossInfo noWallet ⟨some (bossContracts flameLord)⟩ 4).completion = .ok o
        ∧ o.colorClass = getColorClass "烈焰领主"
        ∧ o.difficultyClass = getColorClass "烈焰领主") :=
  ⟨(getColorClass_priority "寒冰巨人").2.2.2.2.2.1 ((includes_iff _ _).1 (by decide))
      (fun h => h.elim ((includes_false_iff _ _).1 (by decide))
        ((includes_false_iff _ _).1 (by decide))),
    (getColorClass_priority "暗影之王").2.2.1
      (fun h => h.elim ((includes_false_iff _ _).1 (by decide))
        ((includes_false_iff _ _).1 (by decide)))
      (fun h => h.elim ((includes_false_iff _ _).1 (by decide))
        ((includes_false_iff _ _).1 (by decide)))
      (Or.inl ((includes_iff _ _).1 (by decide))),
    (getColorClass_priority "石像守卫").2.2.2.1
      (fun h => h.elim ((includes_false_iff _ _).1 (by decide))
        ((includes_false_iff _ _).1 (by decide)))
      (fun h => h.elim ((includes_false_iff _ _).1 (by decide))
        ((includes_false_iff _ _).1 (by decide)))
      (fun h => h.elim ((includes_false_iff _ _).1 (by decide))
        ((includes_false_iff _ _).1 (by decide))),
    (getColorClass_priority "烈焰领主").2.2.2.2.2.2.2 noWallet (bossContracts flameLord) 4
      flameLord rfl rfl⟩

end WorldBoss
